import Mathlib

/-!
Verification development for the character discovery and export subsystem
(`character_manager.py` and `zip_utils.py`).

The filesystem is modelled as a pure tree of nodes (`FsNode`); paths are lists
of name components.  A `World` bundles the filesystem root with the pieces of
ambient environment the code observes (possible I/O faults during archive
building, the formatted timestamp, the formatted size of a produced archive).
Archives are modelled by the ordered list of their entry names, an entry name
being the list of its `/`-separated components, so the entry `a/b/c.png` is
`["a", "b", "c.png"]`.
-/

/-- The parsed content of a JSON metadata file.  The discovery code only ever
extracts the `prompt` field from the loaded document, so the model keeps just
that field; `none` for `prompt` models a document without a usable prompt. -/
structure JsonDoc where
  prompt : Option String
deriving DecidableEq, Repr

/-- A filesystem node: a regular file with its byte size and (for `.json`
files) its parseable content (`none` models an unparseable file), or a
directory with its creation time (`st_ctime`), its own `st_size` (a real,
platform-dependent value on disk, e.g. 4096), and its named children in
directory-iteration order. -/
inductive FsNode where
  | file (size : Nat) (json : Option JsonDoc)
  | dir (ctime : Nat) (size : Nat) (entries : List (String × FsNode))

/-- Children of a node; a regular file has none. -/
def FsNode.entriesOf : FsNode → List (String × FsNode)
  | FsNode.file _ _ => []
  | FsNode.dir _ _ es => es

/-- `Path.is_dir()`. -/
def FsNode.isDir : FsNode → Bool
  | FsNode.file _ _ => false
  | FsNode.dir _ _ _ => true

/-- `stat().st_ctime`.  Only directory ctimes are ever read by the code. -/
def FsNode.ctimeOf : FsNode → Nat
  | FsNode.file _ _ => 0
  | FsNode.dir t _ _ => t

/-- `stat().st_size`, defined for files and directories alike (the estimator
reads it through whatever a glob matched). -/
def FsNode.fileSize : FsNode → Nat
  | FsNode.file s _ => s
  | FsNode.dir _ s _ => s

/-- Look up a direct child by name. -/
def FsNode.lookupEntry (n : FsNode) (name : String) : Option FsNode :=
  (n.entriesOf.find? (fun e => e.1 == name)).map Prod.snd

/-- Resolve a path (list of components) from a node. -/
def FsNode.resolvePath : FsNode → List String → Option FsNode
  | node, [] => some node
  | node, c :: rest =>
    match node.lookupEntry c with
    | some child => child.resolvePath rest
    | none => none

/-- The ambient environment of a call: the filesystem root, a possible
environment-level I/O fault (disk full, temp-file failure, ...) raised while
an archive is being assembled, and the strings the environment supplies for
the human-readable success messages (`datetime.now()` formatted, formatted
size of the produced temp file). -/
structure World where
  root : FsNode
  ioError : Option String
  timestamp : String
  zipSizeStr : String

/-- Resolve an absolute path in a world. -/
def World.resolve (w : World) (p : List String) : Option FsNode :=
  w.root.resolvePath p

/-- `str.startswith(pre)`, computed on the underlying character lists (the
built-in `String.startsWith` does not reduce definitionally). -/
def strStartsWith (name pre : String) : Bool :=
  pre.data.isPrefixOf name.data

/-- `str.endswith(suf)`, computed on the underlying character lists. -/
def strEndsWith (name suf : String) : Bool :=
  suf.data.isSuffixOf name.data

/-- `fnmatch`-style matching for the glob patterns the code uses, all of which
are of the form `<literal>*<literal>` (one `*`, no `?` or classes): the name
must start with `pre`, end with `suf`, and be long enough that the two do not
overlap. -/
def globMatch (pre suf name : String) : Bool :=
  strStartsWith name pre && strEndsWith name suf &&
    decide (pre.length + suf.length ≤ name.length)

/-- `CharacterInfo` (`character_manager.py`).  `styled_counts` is an
association list in insertion order, modelling the Python dict. -/
structure CharacterInfo where
  session_id : String
  character_id : String
  path : List String
  creation_date : Nat
  base_image_path : Option (List String)
  base_metadata : Option JsonDoc
  prompt : Option String
  realistic_count : Nat
  styled_counts : List (String × Nat)
  total_images : Nat
deriving DecidableEq, Repr

/-- The dedup key `(session_id, character_id)`. -/
def charKey (c : CharacterInfo) : String × String :=
  (c.session_id, c.character_id)

/-- The mutable slots of a `CharacterManager`: the cached list and the time of
the last scan (in whole seconds; `datetime` microseconds are irrelevant to
every claim). -/
structure ManagerState where
  characters_cache : Option (List CharacterInfo)
  last_scan_time : Option Int

/-- `_analyze_character_directory`: build a `CharacterInfo` from a character
directory, or `none` when the directory has no images (noise) or an exception
was raised and caught (missing path; a `Styles` existing as a regular file,
on which `iterdir` raises `NotADirectoryError`).  `glob` on a
`ConsistencyTests` that exists as a regular file yields no matches without
raising, so the record survives with `realistic_count = 0`.  A metadata file
that exists but does not parse is treated as absent. -/
def _analyze_character_directory (w : World) (session_id character_id : String)
    (char_path : List String) : Option CharacterInfo :=
  match w.resolve char_path with
  | none => none
  | some node =>
    let creation_date := node.ctimeOf
    let base_image_path :=
      if (node.lookupEntry "Base-Character.png").isSome then
        some (char_path ++ ["Base-Character.png"])
      else if (node.lookupEntry "Base-Image.png").isSome then
        some (char_path ++ ["Base-Image.png"])
      else none
    let base_metadata :=
      (match node.lookupEntry "base_character_metadata.json" with
       | some n => some n
       | none => node.lookupEntry "base_image_metadata.json").bind
        (fun n => match n with
          | FsNode.file _ j => j
          | FsNode.dir _ _ _ => none)
    let prompt := base_metadata.bind JsonDoc.prompt
    let rc :=
      match node.lookupEntry "ConsistencyTests" with
      | some (FsNode.dir _ _ ces) =>
        ces.countP (fun (f : String × FsNode) => globMatch "Realistic_" ".png" f.1)
      | _ => 0
    let scOpt :=
      match node.lookupEntry "Styles" with
      | none => some ([] : List (String × Nat))
      | some (FsNode.dir _ _ ses) =>
        some (ses.filterMap (fun (sd : String × FsNode) =>
          if sd.2.isDir then
            some (sd.1, sd.2.entriesOf.countP (fun (f : String × FsNode) => globMatch "" ".png" f.1))
          else none))
      | some (FsNode.file _ _) => none
    match scOpt with
    | some sc =>
      let baseCount :=
        match base_image_path with
        | some p => if (w.resolve p).isSome then 1 else 0
        | none => 0
      let total := baseCount + rc + (sc.map Prod.snd).sum
      if 0 < total then
        some { session_id := session_id, character_id := character_id,
               path := char_path, creation_date := creation_date,
               base_image_path := base_image_path,
               base_metadata := base_metadata, prompt := prompt,
               realistic_count := rc, styled_counts := sc,
               total_images := total }
      else none
    | none => none

/-- Pattern 1 of `_scan_location`: `Session_*` directories, each scanned for
`Char_*` subdirectories.  A non-directory scan location makes `glob` raise;
the surrounding handler turns that into an empty result. -/
def standardPass (w : World) (location : List String) : List CharacterInfo :=
  match w.resolve location with
  | some (FsNode.dir _ _ es) =>
    es.flatMap (fun se =>
      if globMatch "Session_" "" se.1 && se.2.isDir then
        se.2.entriesOf.filterMap (fun ce =>
          if globMatch "Char_" "" ce.1 && ce.2.isDir then
            _analyze_character_directory w se.1 ce.1 (location ++ [se.1, ce.1])
          else none)
      else [])
  | _ => []

/-- Pattern 2 of `_scan_location`: any other top-level directory (excluding
`Session_*`-prefixed ones, dotfiles and `__pycache__`) is a candidate session;
a subdirectory with a `Base-*.png` file or a `*metadata.json` file is a
candidate character. -/
def legacyPass (w : World) (location : List String) : List CharacterInfo :=
  match w.resolve location with
  | some (FsNode.dir _ _ es) =>
    es.flatMap (fun se =>
      if se.2.isDir && !strStartsWith se.1 "Session_" && !strStartsWith se.1 "." &&
          se.1 != "__pycache__" then
        se.2.entriesOf.filterMap (fun ce =>
          if ce.2.isDir then
            if ce.2.entriesOf.any (fun f => globMatch "Base-" ".png" f.1) ||
                ce.2.entriesOf.any (fun f => globMatch "" "metadata.json" f.1) then
              _analyze_character_directory w se.1 ce.1 (location ++ [se.1, ce.1])
            else none
          else none)
      else [])
  | _ => []

/-- `_scan_location`: the Standard pass runs in full before the Legacy pass,
and its results come first in the collected list. -/
def _scan_location (w : World) (location : List String) : List CharacterInfo :=
  standardPass w location ++ legacyPass w location

/-- The collection loop of `discover_characters`: non-existent scan locations
are skipped, the rest are scanned in order. -/
def scannedCharacters (w : World) (scan_locations : List (List String)) :
    List CharacterInfo :=
  scan_locations.flatMap (fun loc =>
    if (w.resolve loc).isSome then _scan_location w loc else [])

/-- The dedup loop of `discover_characters`: first-seen wins, later records
with an already-seen `(session_id, character_id)` key are dropped. -/
def dedupFirstSeen : List CharacterInfo → List (String × String) → List CharacterInfo
  | [], _ => []
  | c :: rest, seen =>
    if charKey c ∈ seen then dedupFirstSeen rest seen
    else c :: dedupFirstSeen rest (charKey c :: seen)

/-- The sort order of `characters.sort(key=lambda x: x.creation_date,
reverse=True)`: newest first.  Python's sort is stable, which
`List.insertionSort` with this non-strict relation reproduces. -/
def byCreationDesc (a b : CharacterInfo) : Prop :=
  b.creation_date ≤ a.creation_date

instance : DecidableRel byCreationDesc :=
  fun a b => Nat.decLe b.creation_date a.creation_date

instance : IsTotal CharacterInfo byCreationDesc :=
  ⟨fun a b => (Nat.le_total b.creation_date a.creation_date).elim Or.inl Or.inr⟩

instance : IsTrans CharacterInfo byCreationDesc :=
  ⟨fun _ _ _ h h2 => Nat.le_trans h2 h⟩

/-- The seconds component of a Python `timedelta` whose total length is
`delta` seconds: `timedelta.seconds` is the normalized seconds field in
`[0, 86400)`, not the total number of seconds. -/
def timedeltaSeconds (delta : Int) : Int :=
  delta % 86400

/-- `discover_characters`: return the cached list when a cache and a last scan
time exist, `force_refresh` is off and `(now - last).seconds < 30`; otherwise
scan every location, deduplicate first-seen-wins, sort newest first, and
replace the cache.  Returns the result list together with the updated
manager state. -/
def discover_characters (w : World) (now : Int) (st : ManagerState)
    (scan_locations : List (List String)) (force_refresh : Bool) :
    List CharacterInfo × ManagerState :=
  match st.characters_cache, st.last_scan_time with
  | some cache, some t =>
    if force_refresh = false ∧ timedeltaSeconds (now - t) < 30 then
      (cache, st)
    else
      let characters :=
        List.insertionSort byCreationDesc
          (dedupFirstSeen (scannedCharacters w scan_locations) [])
      (characters, { characters_cache := some characters, last_scan_time := some now })
  | _, _ =>
    let characters :=
      List.insertionSort byCreationDesc
        (dedupFirstSeen (scannedCharacters w scan_locations) [])
    (characters, { characters_cache := some characters, last_scan_time := some now })

/-- `Path.name`: the last component of a path. -/
def pathName (p : List String) : String :=
  p.getLastD ""

/-- One `zipf.write(src, arcname)`: the entry recorded in the archive.
`zipfile` appends a `/` to the arcname when the source is a directory, which
the component model renders as a trailing empty component. -/
def zipWriteArc (arc : List String) (node : FsNode) : List String :=
  if node.isDir then arc ++ [""] else arc

/-- The per-character file entries common to `create_character_zip` and the
per-character loop body of `create_batch_zip` (whose code is a copy of the
former with every arcname prefixed by the character folder, here `pfx`):
base image, base metadata, `ConsistencyTests` images (+ `*.json` when
`include_metadata`), and per style subdirectory the `Styles` images
(+ `*.json` when `include_metadata`).  `glob` on a `ConsistencyTests` that
exists as a regular file yields no matches without raising; `iterdir` on a
`Styles` that exists as a regular file raises `NotADirectoryError`, which
the builder's top-level handler will catch. -/
def characterFileEntries (w : World) (char_info : CharacterInfo)
    (include_metadata : Bool) (pfx : List String) :
    Except String (List (List String)) :=
  let base :=
    match char_info.base_image_path with
    | some p =>
      match w.resolve p with
      | some n => [zipWriteArc (pfx ++ [pathName p]) n]
      | none => []
    | none => []
  let baseMeta :=
    if include_metadata && char_info.base_metadata.isSome then
      [pfx ++ ["base_character_metadata.json"]]
    else []
  let consisEntries :=
    match w.resolve (char_info.path ++ ["ConsistencyTests"]) with
    | some (FsNode.dir _ _ es) =>
      (es.filter (fun (f : String × FsNode) => globMatch "" ".png" f.1)).map
        (fun f => zipWriteArc (pfx ++ ["ConsistencyTests", f.1]) f.2) ++
      (if include_metadata then
        (es.filter (fun (f : String × FsNode) => globMatch "" ".json" f.1)).map
          (fun f => zipWriteArc (pfx ++ ["ConsistencyTests", f.1]) f.2)
       else [])
    | _ => []
  match w.resolve (char_info.path ++ ["Styles"]) with
  | some (FsNode.file _ _) => Except.error "NotADirectoryError"
  | stylesNode =>
    let styleEntries :=
      match stylesNode with
      | some (FsNode.dir _ _ ses) =>
        ses.flatMap (fun (sd : String × FsNode) =>
          if sd.2.isDir then
            (sd.2.entriesOf.filter (fun (f : String × FsNode) => globMatch "" ".png" f.1)).map
              (fun f => zipWriteArc (pfx ++ ["Styles", sd.1, f.1]) f.2) ++
            (if include_metadata then
              (sd.2.entriesOf.filter (fun (f : String × FsNode) => globMatch "" ".json" f.1)).map
                (fun f => zipWriteArc (pfx ++ ["Styles", sd.1, f.1]) f.2)
             else [])
          else [])
      | _ => []
    Except.ok (base ++ baseMeta ++ consisEntries ++ styleEntries)

/-- `create_character_zip`: a `(success, message, archive)` triple; the third
component stands for the temp-file path and carries the entry names of the
archive written there, in write order.  Any exception raised inside the `try`
(an environment fault or a `NotADirectoryError` from a glob) is caught and
reported as a failure triple. -/
def create_character_zip (w : World) (char_info : CharacterInfo)
    (include_metadata : Bool) : Bool × String × Option (List (List String)) :=
  match w.ioError with
  | some e => (false, "❌ Error creating ZIP: " ++ e, none)
  | none =>
    match characterFileEntries w char_info include_metadata [] with
    | Except.error e => (false, "❌ Error creating ZIP: " ++ e, none)
    | Except.ok es =>
      let entries :=
        es ++ (if include_metadata then
                 [["character_summary.json"], ["README.txt"]]
               else [])
      (true,
       "✅ ZIP created successfully: " ++ char_info.character_id ++ "_" ++
         w.timestamp ++ ".zip (" ++ w.zipSizeStr ++ " MB)",
       some entries)

/-- One character's contribution to a batch archive: the common file entries
prefixed with `<session_id>_<character_id>`, plus that character's
`character_summary.json` when `include_metadata`. -/
def batchCharEntries (w : World) (char_info : CharacterInfo)
    (include_metadata : Bool) : Except String (List (List String)) :=
  let char_folder := char_info.session_id ++ "_" ++ char_info.character_id
  match characterFileEntries w char_info include_metadata [char_folder] with
  | Except.error e => Except.error e
  | Except.ok es =>
    Except.ok (es ++ (if include_metadata then
                        [[char_folder, "character_summary.json"]]
                      else []))

/-- The per-character loop of `create_batch_zip`, in list order. -/
def batchAllEntries (w : World) (characters : List CharacterInfo)
    (include_metadata : Bool) : Except String (List (List String)) :=
  match characters with
  | [] => Except.ok []
  | c :: rest =>
    match batchCharEntries w c include_metadata with
    | Except.error e => Except.error e
    | Except.ok es =>
      match batchAllEntries w rest include_metadata with
      | Except.error e => Except.error e
      | Except.ok rs => Except.ok (es ++ rs)

/-- `create_batch_zip`: rejects an empty selection before any I/O, then
writes every character under its own folder and, when `include_metadata`,
the root-level `batch_summary.json` and `README.txt`.  Exceptions inside the
`try` are caught and reported as a failure triple. -/
def create_batch_zip (w : World) (characters : List CharacterInfo)
    (include_metadata : Bool) : Bool × String × Option (List (List String)) :=
  if characters.isEmpty then
    (false, "❌ No characters selected", none)
  else
    match w.ioError with
    | some e => (false, "❌ Error creating batch ZIP: " ++ e, none)
    | none =>
      match batchAllEntries w characters include_metadata with
      | Except.error e => (false, "❌ Error creating batch ZIP: " ++ e, none)
      | Except.ok es =>
        let entries :=
          es ++ (if include_metadata then
                   [["batch_summary.json"], ["README.txt"]]
                 else [])
        (true,
         "✅ Batch ZIP created: " ++ toString characters.length ++
           " characters (" ++ w.zipSizeStr ++ " MB)",
         some entries)

/-- The base-image term of the size estimate: `stat().st_size` of the base
image when it exists. -/
def baseImageBytes (w : World) (c : CharacterInfo) : Nat :=
  match c.base_image_path with
  | some p =>
    match w.resolve p with
    | some n => n.fileSize
    | none => 0
  | none => 0

/-- Total size of the `*.png`-matching entries of a directory listing. -/
def pngBytesOfEntries (es : List (String × FsNode)) : Nat :=
  ((es.filter (fun (f : String × FsNode) => globMatch "" ".png" f.1)).map
    (fun f => f.2.fileSize)).sum

/-- The `ConsistencyTests` term of the size estimate. -/
def consistencyPngBytes (w : World) (c : CharacterInfo) : Nat :=
  match w.resolve (c.path ++ ["ConsistencyTests"]) with
  | some (FsNode.dir _ _ es) => pngBytesOfEntries es
  | _ => 0

/-- The `Styles` term of the size estimate: per style subdirectory, its
`*.png` files. -/
def stylesPngBytes (w : World) (c : CharacterInfo) : Nat :=
  match w.resolve (c.path ++ ["Styles"]) with
  | some (FsNode.dir _ _ ses) =>
    (ses.map (fun (sd : String × FsNode) =>
      if sd.2.isDir then pngBytesOfEntries sd.2.entriesOf else 0)).sum
  | _ => 0

/-- One character's term of the size-estimate loop.  `glob` on a
`ConsistencyTests` that exists as a regular file yields no matches (that
folder then contributes 0 bytes); only `iterdir` on a `Styles` that exists
as a regular file raises. -/
def estimatedSizeOfChar (w : World) (c : CharacterInfo) : Except String Nat :=
  match w.resolve (c.path ++ ["Styles"]) with
  | some (FsNode.file _ _) => Except.error "NotADirectoryError"
  | _ => Except.ok (baseImageBytes w c + consistencyPngBytes w c + stylesPngBytes w c)

/-- The accumulation loop of `get_estimated_zip_size`. -/
def estimatedTotalSize (w : World) : List CharacterInfo → Except String Nat
  | [] => Except.ok 0
  | c :: rest =>
    match estimatedSizeOfChar w c with
    | Except.error e => Except.error e
    | Except.ok s =>
      match estimatedTotalSize w rest with
      | Except.error e => Except.error e
      | Except.ok r => Except.ok (s + r)

/-- Round `N / 2^k` to the nearest integer, ties to even: the IEEE-754
round-to-nearest-even step of a binary floating-point operation. -/
def roundNearestEven (N k : Nat) : Nat :=
  let q := N / 2 ^ k
  let r := N % 2 ^ k
  if 2 * r < 2 ^ k then q
  else if 2 ^ k < 2 * r then q + 1
  else if q % 2 = 0 then q else q + 1

/-- Floor of the base-2 logarithm, with explicit fuel so that the kernel can
evaluate it by structural recursion; `log2floor fuel n` is exact for
`n < 2 ^ fuel`. -/
def log2floor (fuel n : Nat) : Nat :=
  match fuel with
  | 0 => 0
  | fuel + 1 => if n < 2 then 0 else log2floor fuel (n / 2) + 1

/-- The integer value of the IEEE double nearest to the integer `n`: exact
below `2^53`, otherwise `n` rounded to 53 significant bits with
round-to-nearest-even.  (Overflow to infinity happens only beyond `2^1024`,
far outside any file-size total.) -/
def natToDouble (n : Nat) : Nat :=
  if n = 0 then 0
  else
    let b := log2floor 128 n
    if b ≤ 52 then n
    else roundNearestEven n (b - 52) * 2 ^ (b - 52)

/-- Model of Python `int(n * 0.7)` for a non-negative integer `n`: `n` is
first converted to the nearest double; the IEEE double nearest to `0.7` is
`6305039478318694 / 2^53` (slightly below `7/10`); the exact product of the
two doubles is rounded to 53 significant bits with round-to-nearest-even and
then truncated toward zero.  Because the stored constant is below `7/10`,
the result is occasionally one less than `⌊7n/10⌋` (first at `n = 90`). -/
def int_mul_0_7 (n : Nat) : Nat :=
  if n = 0 then 0
  else
    let N := natToDouble n * 6305039478318694
    let b := log2floor 256 N
    if b ≤ 52 then N / 2 ^ 53
    else roundNearestEven N (b - 52) * 2 ^ (b - 52) / 2 ^ 53

/-- One-decimal rendering of `n / d`, approximating Python's `f"{x:.1f}"`
(no claim constrains these digits). -/
def fmtDiv1 (n d : Nat) : String :=
  toString (n * 10 / d / 10) ++ "." ++ toString (n * 10 / d % 10)

/-- The human-readable size string of `get_estimated_zip_size`. -/
def sizeString (est : Nat) : String :=
  if est > 1024 ^ 3 then fmtDiv1 est (1024 ^ 3) ++ " GB"
  else if est > 1024 ^ 2 then fmtDiv1 est (1024 ^ 2) ++ " MB"
  else fmtDiv1 est 1024 ++ " KB"

/-- `get_estimated_zip_size`: sum the on-disk sizes of base image,
`ConsistencyTests/*.png` and `Styles/*/*.png` for every record, scale by the
compression estimate `0.7` (in double arithmetic, truncated by `int()`), and
format; any exception inside the `try` yields `(0, "Unknown")`. -/
def get_estimated_zip_size (w : World) (characters : List CharacterInfo) :
    Nat × String :=
  match w.ioError with
  | some _ => (0, "Unknown")
  | none =>
    match estimatedTotalSize w characters with
    | Except.error _ => (0, "Unknown")
    | Except.ok total_size =>
      let estimated_zip_size := int_mul_0_7 total_size
      (estimated_zip_size, sizeString estimated_zip_size)

/-- The byte total named by the size-estimator claim, stated independently of
the loop: per record, the existing base image plus every `.png` file under
`ConsistencyTests` plus every `.png` file under each subdirectory of
`Styles`. -/
def specTotalBytes (w : World) (characters : List CharacterInfo) : Nat :=
  (characters.map (fun c =>
    baseImageBytes w c + consistencyPngBytes w c + stylesPngBytes w c)).sum

/-- The `1 if base image exists else 0` term of the `total_images` formula,
as named by the invariant. -/
def baseExistsCount (w : World) (r : CharacterInfo) : Nat :=
  match r.base_image_path with
  | some p => if (w.resolve p).isSome then 1 else 0
  | none => 0

lemma analyze_total_images (w : World) (s c : String) (p : List String)
    (r : CharacterInfo) (h : _analyze_character_directory w s c p = some r) :
    r.total_images =
      baseExistsCount w r + r.realistic_count + (r.styled_counts.map Prod.snd).sum ∧
    0 < r.total_images := by
  unfold _analyze_character_directory at h
  simp only [] at h
  repeat' split at h
  all_goals first
    | exact Option.noConfusion h
    | (have hr := Option.some.inj h; subst hr;
       constructor <;> simp_all [baseExistsCount])

lemma mem_standardPass (w : World) (loc : List String) (r : CharacterInfo)
    (h : r ∈ standardPass w loc) :
    ∃ s c p, _analyze_character_directory w s c p = some r := by
  unfold standardPass at h
  split at h
  case h_2 => exact absurd h (by simp)
  case h_1 t es heq =>
    rw [List.mem_flatMap] at h
    obtain ⟨se, _, h2⟩ := h
    split at h2
    case isFalse => exact absurd h2 (by simp)
    case isTrue =>
      rw [List.mem_filterMap] at h2
      obtain ⟨ce, _, h3⟩ := h2
      split at h3
      case isFalse => exact absurd h3 (by simp)
      case isTrue => exact ⟨_, _, _, h3⟩

lemma mem_legacyPass (w : World) (loc : List String) (r : CharacterInfo)
    (h : r ∈ legacyPass w loc) :
    ∃ s c p, _analyze_character_directory w s c p = some r := by
  unfold legacyPass at h
  split at h
  case h_2 => exact absurd h (by simp)
  case h_1 t es heq =>
    rw [List.mem_flatMap] at h
    obtain ⟨se, _, h2⟩ := h
    split at h2
    case isFalse => exact absurd h2 (by simp)
    case isTrue =>
      rw [List.mem_filterMap] at h2
      obtain ⟨ce, _, h3⟩ := h2
      split at h3
      case isFalse => exact absurd h3 (by simp)
      case isTrue =>
        split at h3
        case isFalse => exact absurd h3 (by simp)
        case isTrue => exact ⟨_, _, _, h3⟩

lemma mem_scan_location (w : World) (loc : List String) (r : CharacterInfo)
    (h : r ∈ _scan_location w loc) :
    ∃ s c p, _analyze_character_directory w s c p = some r := by
  rw [_scan_location, List.mem_append] at h
  exact h.elim (mem_standardPass w loc r) (mem_legacyPass w loc r)

lemma mem_scannedCharacters (w : World) (locs : List (List String))
    (r : CharacterInfo) (h : r ∈ scannedCharacters w locs) :
    ∃ s c p, _analyze_character_directory w s c p = some r := by
  rw [scannedCharacters, List.mem_flatMap] at h
  obtain ⟨loc, _, h2⟩ := h
  split at h2
  case isFalse => exact absurd h2 (by simp)
  case isTrue => exact mem_scan_location w loc r h2

lemma mem_dedupFirstSeen (l : List CharacterInfo) (seen : List (String × String))
    (r : CharacterInfo) (h : r ∈ dedupFirstSeen l seen) : r ∈ l := by
  induction l generalizing seen with
  | nil => exact absurd h (by simp [dedupFirstSeen])
  | cons c rest ih =>
    rw [dedupFirstSeen] at h
    split at h
    case isTrue => exact List.mem_cons_of_mem c (ih _ h)
    case isFalse =>
      rcases List.mem_cons.mp h with h1 | h2
      · exact h1 ▸ List.mem_cons_self c rest
      · exact List.mem_cons_of_mem c (ih _ h2)

lemma dedupFirstSeen_keys_nodup (l : List CharacterInfo)
    (seen : List (String × String)) :
    ((dedupFirstSeen l seen).map charKey).Nodup ∧
      ∀ k ∈ (dedupFirstSeen l seen).map charKey, k ∉ seen := by
  induction l generalizing seen with
  | nil => simp [dedupFirstSeen]
  | cons c rest ih =>
    rw [dedupFirstSeen]
    split
    case isTrue hmem => exact (ih seen)
    case isFalse hmem =>
      obtain ⟨ihn, ihs⟩ := ih (charKey c :: seen)
      refine ⟨?_, ?_⟩
      · rw [List.map_cons, List.nodup_cons]
        exact ⟨fun hin => (ihs _ hin) (List.mem_cons_self _ _), ihn⟩
      · intro k hk
        rcases List.mem_cons.mp hk with hk1 | hk2
        · exact hk1 ▸ hmem
        · exact fun hks => (ihs k hk2) (List.mem_cons_of_mem _ hks)

lemma dedupFirstSeen_first_occurrence (l : List CharacterInfo)
    (seen : List (String × String)) (r : CharacterInfo)
    (h : r ∈ dedupFirstSeen l seen) :
    charKey r ∉ seen ∧
      ∃ pre suf, l = pre ++ r :: suf ∧
        ∀ r2 ∈ pre, charKey r2 = charKey r → charKey r2 ∈ seen := by
  induction l generalizing seen with
  | nil => exact absurd h (by simp [dedupFirstSeen])
  | cons c rest ih =>
    rw [dedupFirstSeen] at h
    split at h
    case isTrue hmem =>
      obtain ⟨hns, pre, suf, heq, hpre⟩ := ih seen h
      refine ⟨hns, c :: pre, suf, by rw [heq]; rfl, ?_⟩
      intro r2 hr2 hkey
      rcases List.mem_cons.mp hr2 with h1 | h2
      · subst h1; exact hmem
      · exact hpre r2 h2 hkey
    case isFalse hmem =>
      rcases List.mem_cons.mp h with h1 | h2
      · subst h1
        exact ⟨hmem, [], rest, rfl, by simp⟩
      · obtain ⟨hns, pre, suf, heq, hpre⟩ := ih (charKey c :: seen) h2
        have hnsc : charKey r ∉ seen := fun hs => hns (List.mem_cons_of_mem _ hs)
        have hne : charKey r ≠ charKey c := fun he => hns (he ▸ List.mem_cons_self _ _)
        refine ⟨hnsc, c :: pre, suf, by rw [heq]; rfl, ?_⟩
        intro r2 hr2 hkey
        rcases List.mem_cons.mp hr2 with hh1 | hh2
        · subst hh1; exact absurd hkey.symm hne
        · rcases List.mem_cons.mp (hpre r2 hh2 hkey) with hc | hs
          · exact absurd (hkey.symm.trans hc) hne
          · exact hs

lemma discover_force_eq (w : World) (now : Int) (st : ManagerState)
    (locs : List (List String)) :
    discover_characters w now st locs true =
      (List.insertionSort byCreationDesc
        (dedupFirstSeen (scannedCharacters w locs) []),
       { characters_cache := some (List.insertionSort byCreationDesc
           (dedupFirstSeen (scannedCharacters w locs) [])),
         last_scan_time := some now }) := by
  unfold discover_characters
  cases hc : st.characters_cache <;> cases ht : st.last_scan_time <;> simp

lemma filter_time_orderedInsert (t : Nat) (x : CharacterInfo)
    (l : List CharacterInfo) :
    (List.orderedInsert byCreationDesc x l).filter
        (fun r => decide (r.creation_date = t)) =
      if x.creation_date = t then
        x :: l.filter (fun r => decide (r.creation_date = t))
      else l.filter (fun r => decide (r.creation_date = t)) := by
  induction l with
  | nil =>
    by_cases hx : x.creation_date = t <;>
      simp [List.orderedInsert, List.filter_cons, hx]
  | cons y ys ih =>
    rw [List.orderedInsert]
    by_cases hr : byCreationDesc x y
    · rw [if_pos hr]
      by_cases hx : x.creation_date = t <;>
        by_cases hy : y.creation_date = t <;>
          simp [List.filter_cons, hx, hy]
    · rw [if_neg hr]
      have hlt : x.creation_date < y.creation_date :=
        Nat.lt_of_not_le (fun hle => hr hle)
      by_cases hx : x.creation_date = t
      · have hy : ¬ y.creation_date = t := by omega
        simp [List.filter_cons, hx, hy, ih]
      · by_cases hy : y.creation_date = t <;>
          simp [List.filter_cons, hx, hy, ih]

lemma filter_time_insertionSort (t : Nat) (l : List CharacterInfo) :
    (List.insertionSort byCreationDesc l).filter
        (fun r => decide (r.creation_date = t)) =
      l.filter (fun r => decide (r.creation_date = t)) := by
  induction l with
  | nil => rfl
  | cons a l ih =>
    rw [List.insertionSort, filter_time_orderedInsert]
    by_cases ha : a.creation_date = t <;> simp [List.filter_cons, ha, ih]

lemma discover_force_fst (w : World) (now : Int) (st : ManagerState)
    (locs : List (List String)) :
    (discover_characters w now st locs true).1 =
      List.insertionSort byCreationDesc
        (dedupFirstSeen (scannedCharacters w locs) []) := by
  rw [discover_force_eq]

lemma scanned_single (w : World) (loc : List String) :
    scannedCharacters w [loc] = standardPass w loc ++ legacyPass w loc := by
  rw [scannedCharacters]
  simp only [List.flatMap_cons, List.flatMap_nil, List.append_nil]
  cases hres : w.resolve loc with
  | none => simp [standardPass, legacyPass, hres, _scan_location]
  | some n => simp [hres, _scan_location]

/-- C1: every record returned by a scan of `discover_characters` satisfies
`total_images = (1 if base image exists else 0) + realistic_count +
sum(styled_counts.values())`, and no record with `total_images == 0` is ever
present (zero-image directories are excluded as noise). -/
theorem discovered_record_total_images (w : World) (locs : List (List String))
    (now : Int) (st : ManagerState) (r : CharacterInfo)
    (hr : r ∈ (discover_characters w now st locs true).1) :
    r.total_images =
      baseExistsCount w r + r.realistic_count +
        (r.styled_counts.map Prod.snd).sum ∧
    0 < r.total_images := by
  rw [discover_force_fst, List.mem_insertionSort] at hr
  obtain ⟨s, c, p, ha⟩ :=
    mem_scannedCharacters w locs r (mem_dedupFirstSeen _ _ r hr)
  exact analyze_total_images w s c p r ha

/-- C2: a scan returns at most one record per `(session_id, character_id)`
pair; the record kept for a key is the first-seen one in scan order (later
duplicates are dropped, never merged); and since the Standard pass of a root
precedes the Legacy pass, a key discoverable via the Standard convention has
its record sourced from the Standard-convention parse. -/
theorem discovered_records_dedup_standard_priority (w : World)
    (loc : List String) (now : Int) (st : ManagerState) :
    (((discover_characters w now st [loc] true).1.map charKey).Nodup) ∧
    (∀ r ∈ (discover_characters w now st [loc] true).1,
      ∃ pre suf, scannedCharacters w [loc] = pre ++ r :: suf ∧
        ∀ r2 ∈ pre, charKey r2 ≠ charKey r) ∧
    (∀ r ∈ (discover_characters w now st [loc] true).1,
      charKey r ∈ (standardPass w loc).map charKey →
        r ∈ standardPass w loc) := by
  have hperm :
      List.Perm (dedupFirstSeen (scannedCharacters w [loc]) [])
        (discover_characters w now st [loc] true).1 := by
    rw [discover_force_fst]
    exact (List.perm_insertionSort byCreationDesc _).symm
  have hfirst : ∀ r ∈ (discover_characters w now st [loc] true).1,
      ∃ pre suf, scannedCharacters w [loc] = pre ++ r :: suf ∧
        ∀ r2 ∈ pre, charKey r2 ≠ charKey r := by
    intro r hr
    rw [discover_force_fst, List.mem_insertionSort] at hr
    obtain ⟨-, pre, suf, heq, hpre⟩ :=
      dedupFirstSeen_first_occurrence _ [] r hr
    exact ⟨pre, suf, heq, fun r2 h2 hk =>
      absurd (hpre r2 h2 hk) (List.not_mem_nil _)⟩
  refine ⟨?_, hfirst, ?_⟩
  · exact (hperm.map charKey).nodup (dedupFirstSeen_keys_nodup _ []).1
  · intro r hr hkey
    obtain ⟨s2, hs2, hk2⟩ := List.mem_map.mp hkey
    obtain ⟨pre, suf, heq, hpre⟩ := hfirst r hr
    rw [scanned_single] at heq
    rcases List.append_eq_append_iff.mp heq with ⟨a2, hpre2, -⟩ | ⟨c2, hstd, hcs⟩
    · exact absurd hk2 (hpre s2 (hpre2 ▸ List.mem_append_left a2 hs2))
    · cases c2 with
      | nil =>
        rw [List.append_nil] at hstd
        exact absurd hk2 (hpre s2 (hstd ▸ hs2))
      | cons x c3 =>
        have hx : x = r := (List.cons.injEq _ _ _ _).mp hcs.symm |>.1
        rw [hstd, ← hx]
        exact List.mem_append_right pre (List.mem_cons_self x c3)

/-- C8: a scan of `discover_characters` returns records sorted by creation
timestamp descending (newest first), and the sort is stable: records with
equal timestamps keep their insertion (discovery) order, the order of the
deduplicated scan list. -/
theorem discovered_records_sorted_newest_first (w : World)
    (locs : List (List String)) (now : Int) (st : ManagerState) :
    (discover_characters w now st locs true).1.Pairwise byCreationDesc ∧
    ∀ t : Nat,
      (discover_characters w now st locs true).1.filter
          (fun r => decide (r.creation_date = t)) =
        (dedupFirstSeen (scannedCharacters w locs) []).filter
          (fun r => decide (r.creation_date = t)) := by
  rw [discover_force_fst]
  exact ⟨List.sorted_insertionSort byCreationDesc _,
    fun t => filter_time_insertionSort t _⟩

/-- A fresh manager: no cache, no last scan time. -/
def stEmpty : ManagerState :=
  { characters_cache := none, last_scan_time := none }

/-- A concrete world with one Standard-convention character and one
Legacy-convention character. -/
def discWorld : World :=
  { root := FsNode.dir 0 0
      [("Session_A", FsNode.dir 5 0 [("Char_B", FsNode.dir 7 0
          [("Base-Character.png", FsNode.file 10 none)])]),
       ("legacySess", FsNode.dir 3 0 [("charX", FsNode.dir 9 0
          [("Base-Image.png", FsNode.file 4 none)])])],
    ioError := none, timestamp := "", zipSizeStr := "" }

/-- The record discovery builds for `Session_A/Char_B` in `discWorld`. -/
def discCharB : CharacterInfo :=
  { session_id := "Session_A", character_id := "Char_B",
    path := ["Session_A", "Char_B"], creation_date := 7,
    base_image_path := some ["Session_A", "Char_B", "Base-Character.png"],
    base_metadata := none, prompt := none, realistic_count := 0,
    styled_counts := [], total_images := 1 }

/-- The record discovery builds for `legacySess/charX` in `discWorld`. -/
def discCharX : CharacterInfo :=
  { session_id := "legacySess", character_id := "charX",
    path := ["legacySess", "charX"], creation_date := 9,
    base_image_path := some ["legacySess", "charX", "Base-Image.png"],
    base_metadata := none, prompt := none, realistic_count := 0,
    styled_counts := [], total_images := 1 }

/-- Witness for C1: the invariant evaluated on a concrete discovered
record. -/
theorem discovered_record_total_images_witness :
    discCharX.total_images =
      baseExistsCount discWorld discCharX + discCharX.realistic_count +
        (discCharX.styled_counts.map Prod.snd).sum ∧
    0 < discCharX.total_images :=
  discovered_record_total_images discWorld [[]] 0 stEmpty discCharX
    (by
      have hres : (discover_characters discWorld 0 stEmpty [[]] true).1 =
          [discCharX, discCharB] := rfl
      rw [hres]
      exact List.mem_cons_self _ _)

/-- Witness for C2: the dedup properties evaluated on a concrete scan with
one Standard and one Legacy character. -/
theorem discovered_records_dedup_witness :
    ((discover_characters discWorld 0 stEmpty [[]] true).1.map charKey).Nodup ∧
    (∃ pre suf, scannedCharacters discWorld [[]] = pre ++ discCharX :: suf ∧
      ∀ r2 ∈ pre, charKey r2 ≠ charKey discCharX) ∧
    discCharB ∈ standardPass discWorld [] :=
  ⟨(discovered_records_dedup_standard_priority discWorld [] 0 stEmpty).1,
   (discovered_records_dedup_standard_priority discWorld [] 0 stEmpty).2.1
     discCharX
     (by
       have hres : (discover_characters discWorld 0 stEmpty [[]] true).1 =
           [discCharX, discCharB] := rfl
       rw [hres]
       exact List.mem_cons_self _ _),
   (discovered_records_dedup_standard_priority discWorld [] 0 stEmpty).2.2
     discCharB
     (by
       have hres : (discover_characters discWorld 0 stEmpty [[]] true).1 =
           [discCharX, discCharB] := rfl
       rw [hres]
       exact List.mem_cons_of_mem _ (List.mem_cons_self _ _))
     (by
       have hstd : standardPass discWorld [] = [discCharB] := rfl
       rw [hstd]
       exact List.mem_cons_self _ _)⟩

/-- The world of the first C3 call: one character on disk. -/
def c3World1 : World :=
  { root := FsNode.dir 0 0 [("Session_A", FsNode.dir 5 0 [("Char_B", FsNode.dir 7 0
      [("Base-Character.png", FsNode.file 10 none)])])],
    ioError := none, timestamp := "", zipSizeStr := "" }

/-- The world of the second C3 call: the filesystem has changed, the
character is gone. -/
def c3World2 : World :=
  { root := FsNode.dir 0 0 [], ioError := none, timestamp := "", zipSizeStr := "" }

/-- The record the first C3 scan builds. -/
def c3Record : CharacterInfo :=
  { session_id := "Session_A", character_id := "Char_B",
    path := ["Session_A", "Char_B"], creation_date := 7,
    base_image_path := some ["Session_A", "Char_B", "Base-Character.png"],
    base_metadata := none, prompt := none, realistic_count := 0,
    styled_counts := [], total_images := 1 }

/-- C3, the code evaluated at the failing input: a first call at time 0
scans and caches one record; a second call exactly 86400 seconds (one day)
later — far beyond the 30-second freshness window, and after the filesystem
has emptied — still returns the cached record without scanning, because
`(now - last).seconds` is the normalized seconds component `86400 % 86400 =
0 < 30`, not the total elapsed seconds. -/
theorem discover_cache_stale_after_one_day :
    discover_characters c3World1 0 stEmpty [[]] false =
      ([c3Record],
       { characters_cache := some [c3Record], last_scan_time := some 0 }) ∧
    (30 : Int) ≤ 86400 - 0 ∧
    scannedCharacters c3World2 [[]] = [] ∧
    discover_characters c3World2 86400
        { characters_cache := some [c3Record], last_scan_time := some 0 }
        [[]] false =
      ([c3Record],
       { characters_cache := some [c3Record], last_scan_time := some 0 }) ∧
    [c3Record] ≠ ([] : List CharacterInfo) :=
  ⟨rfl, by decide, rfl, rfl, by decide⟩

/-- C7: the batch build rejects an empty selection with a failure message and
no archive path, and both builders always return a result triple — success
with a path, or failure with a message and no path — for every input; an
internal error never propagates as an exception. -/
theorem zip_builders_fail_softly (w : World) (characters : List CharacterInfo)
    (char_info : CharacterInfo) (include_metadata : Bool) :
    create_batch_zip w [] include_metadata =
      (false, "❌ No characters selected", none) ∧
    ((∃ m es, create_batch_zip w characters include_metadata =
        (true, m, some es)) ∨
     (∃ m, create_batch_zip w characters include_metadata =
        (false, m, none))) ∧
    ((∃ m es, create_character_zip w char_info include_metadata =
        (true, m, some es)) ∨
     (∃ m, create_character_zip w char_info include_metadata =
        (false, m, none))) := by
  refine ⟨rfl, ?_, ?_⟩
  · unfold create_batch_zip
    split
    · exact Or.inr ⟨_, rfl⟩
    · split
      · exact Or.inr ⟨_, rfl⟩
      · split
        · exact Or.inr ⟨_, rfl⟩
        · exact Or.inl ⟨_, _, rfl⟩
  · unfold create_character_zip
    split
    · exact Or.inr ⟨_, rfl⟩
    · split
      · exact Or.inr ⟨_, rfl⟩
      · exact Or.inl ⟨_, _, rfl⟩

/-- C10: the single-character build performs no emptiness check: when none of
the record's backing files exist on disk it still returns success with an
archive, and with `include_metadata = false` that archive has zero entries
(while the batch build rejects an empty record list). -/
theorem single_zip_no_emptiness_check (w : World) (ci : CharacterInfo)
    (hio : w.ioError = none)
    (hbase : ci.base_image_path = none ∨
      ∃ p, ci.base_image_path = some p ∧ w.resolve p = none)
    (hcon : w.resolve (ci.path ++ ["ConsistencyTests"]) = none)
    (hsty : w.resolve (ci.path ++ ["Styles"]) = none) :
    (∃ m, create_character_zip w ci false = (true, m, some [])) ∧
    (∀ im, ∃ m es, create_character_zip w ci im = (true, m, some es)) := by
  have hfe : ∀ im, characterFileEntries w ci im [] =
      Except.ok (if im && ci.base_metadata.isSome then
        [["base_character_metadata.json"]] else []) := by
    intro im
    rcases hbase with hb | ⟨p, hp, hrp⟩
    · simp [characterFileEntries, hcon, hsty, hb]
    · simp [characterFileEntries, hcon, hsty, hp, hrp]
  constructor
  · exact ⟨"✅ ZIP created successfully: " ++ ci.character_id ++ "_" ++
      w.timestamp ++ ".zip (" ++ w.zipSizeStr ++ " MB)",
      by simp [create_character_zip, hio, hfe]⟩
  · intro im
    exact ⟨"✅ ZIP created successfully: " ++ ci.character_id ++ "_" ++
      w.timestamp ++ ".zip (" ++ w.zipSizeStr ++ " MB)",
      (if im && ci.base_metadata.isSome then
        [["base_character_metadata.json"]] else []) ++
        (if im then [["character_summary.json"], ["README.txt"]] else []),
      by simp [create_character_zip, hio, hfe]⟩

/-- A world whose filesystem holds nothing the C10 record refers to. -/
def c10World : World :=
  { root := FsNode.dir 0 0 [], ioError := none, timestamp := "t", zipSizeStr := "s" }

/-- A record whose backing files are all gone. -/
def c10Record : CharacterInfo :=
  { session_id := "S", character_id := "C", path := ["gone"],
    creation_date := 1, base_image_path := none,
    base_metadata := some { prompt := none }, prompt := none,
    realistic_count := 2, styled_counts := [("ghibli", 1)], total_images := 4 }

/-- Witness for C10 at a concrete record with no backing files. -/
theorem single_zip_no_emptiness_check_witness :
    (∃ m, create_character_zip c10World c10Record false = (true, m, some [])) ∧
    (∀ im, ∃ m es, create_character_zip c10World c10Record im =
      (true, m, some es)) :=
  single_zip_no_emptiness_check c10World c10Record rfl (Or.inl rfl) rfl rfl

/-- C4: for a record with an existing base image, base metadata present, a
`ConsistencyTests` folder holding exactly 2 images, and a `Styles` folder
holding exactly the style `ghibli` with 1 image (no per-image metadata
files anywhere), the single-character build with metadata succeeds and the
archive holds exactly 7 entries: base image at root,
`base_character_metadata.json`, 2 files under `ConsistencyTests/`, 1 file
under `Styles/ghibli/`, `character_summary.json` and `README.txt`. -/
theorem single_zip_seven_entries (w : World) (ci : CharacterInfo)
    (bp : List String) (bsz : Nat) (bj : Option JsonDoc) (doc : JsonDoc)
    (cct csz : Nat) (n1 n2 : String) (s1 s2 : Nat) (j1 j2 : Option JsonDoc)
    (sct ssz gct gsz : Nat) (sf : String) (s3 : Nat) (j3 : Option JsonDoc)
    (hio : w.ioError = none)
    (hbp : ci.base_image_path = some bp)
    (hbase : w.resolve bp = some (FsNode.file bsz bj))
    (hmeta : ci.base_metadata = some doc)
    (hcon : w.resolve (ci.path ++ ["ConsistencyTests"]) =
      some (FsNode.dir cct csz [(n1, FsNode.file s1 j1), (n2, FsNode.file s2 j2)]))
    (hn1p : globMatch "" ".png" n1 = true) (hn2p : globMatch "" ".png" n2 = true)
    (hn1j : globMatch "" ".json" n1 = false) (hn2j : globMatch "" ".json" n2 = false)
    (hsty : w.resolve (ci.path ++ ["Styles"]) =
      some (FsNode.dir sct ssz [("ghibli", FsNode.dir gct gsz [(sf, FsNode.file s3 j3)])]))
    (hsfp : globMatch "" ".png" sf = true) (hsfj : globMatch "" ".json" sf = false) :
    ∃ m, create_character_zip w ci true =
      (true, m, some [[pathName bp], ["base_character_metadata.json"],
        ["ConsistencyTests", n1], ["ConsistencyTests", n2],
        ["Styles", "ghibli", sf], ["character_summary.json"], ["README.txt"]]) ∧
    ([[pathName bp], ["base_character_metadata.json"],
      ["ConsistencyTests", n1], ["ConsistencyTests", n2],
      ["Styles", "ghibli", sf], ["character_summary.json"],
      ["README.txt"]] : List (List String)).length = 7 := by
  refine ⟨"✅ ZIP created successfully: " ++ ci.character_id ++ "_" ++
    w.timestamp ++ ".zip (" ++ w.zipSizeStr ++ " MB)", ?_, rfl⟩
  simp [create_character_zip, characterFileEntries, hio, hbp, hbase, hmeta,
    hcon, hsty, List.filter_cons, List.filter_nil, hn1p, hn2p, hn1j, hn2j,
    hsfp, hsfj, zipWriteArc, FsNode.isDir, FsNode.entriesOf]

/-- A world whose character has a non-`Realistic_*` png inside
`ConsistencyTests`. -/
def c5World : World :=
  { root := FsNode.dir 0 0 [("S", FsNode.dir 3 0 [("C", FsNode.dir 4 0
      [("Base-Character.png", FsNode.file 10 none),
       ("ConsistencyTests", FsNode.dir 0 0 [("Extra.png", FsNode.file 7 none)])])])],
    ioError := none, timestamp := "", zipSizeStr := "" }

/-- The record discovery builds for `S/C` in `c5World`: `Extra.png` does not
match `Realistic_*.png`, so `realistic_count = 0`. -/
def c5Record : CharacterInfo :=
  { session_id := "S", character_id := "C", path := ["S", "C"],
    creation_date := 4, base_image_path := some ["S", "C", "Base-Character.png"],
    base_metadata := none, prompt := none, realistic_count := 0,
    styled_counts := [], total_images := 1 }

/-- Counterexample to C5 as stated: for the discovered record `c5Record`
(whose `realistic_count` is 0 because `Extra.png` does not match the
`Realistic_*.png` pattern), the archive nevertheless contains the entry
`ConsistencyTests/Extra.png` — the build copies every `*.png` in the folder,
not only the counted realistic-variation images. -/
theorem consistency_entries_beyond_realistic :
    (discover_characters c5World 0 stEmpty [[]] true).1 = [c5Record] ∧
    c5Record.realistic_count = 0 ∧
    globMatch "Realistic_" ".png" "Extra.png" = false ∧
    create_character_zip c5World c5Record true =
      (true, "✅ ZIP created successfully: C_.zip ( MB)",
       some [["Base-Character.png"], ["ConsistencyTests", "Extra.png"],
         ["character_summary.json"], ["README.txt"]]) ∧
    ["ConsistencyTests", "Extra.png"] ∈
      ([["Base-Character.png"], ["ConsistencyTests", "Extra.png"],
        ["character_summary.json"], ["README.txt"]] : List (List String)) :=
  ⟨rfl, rfl, by decide, rfl, by decide⟩


/-- C5 as amended: the entries placed under `ConsistencyTests/` in a
single-character archive are exactly the `*.png` files of that folder — a
superset of the `Realistic_*.png` files counted by `realistic_count` — plus,
when `include_metadata` is true, all sibling `*.json` files; no other file
of the folder appears in the archive. -/
theorem consistency_entries_are_folder_pngs (w : World) (ci : CharacterInfo)
    (im : Bool) (cct csz : Nat) (es : List (String × FsNode))
    (hio : w.ioError = none)
    (hcon : w.resolve (ci.path ++ ["ConsistencyTests"]) =
      some (FsNode.dir cct csz es))
    (hfiles : ∀ f ∈ es, f.2.isDir = false)
    (hsty : ∀ sz j, w.resolve (ci.path ++ ["Styles"]) ≠ some (FsNode.file sz j))
    (hbase : ∀ p bct bsz bes, ci.base_image_path = some p →
      w.resolve p ≠ some (FsNode.dir bct bsz bes)) :
    ∃ m entries, create_character_zip w ci im = (true, m, some entries) ∧
      entries.filter (fun (e : List String) => decide (e.length = 2) &&
          decide (e.headD "" = "ConsistencyTests")) =
        (es.filter (fun f => globMatch "" ".png" f.1)).map
          (fun f => ["ConsistencyTests", f.1]) ++
        (if im then
          (es.filter (fun f => globMatch "" ".json" f.1)).map
            (fun f => ["ConsistencyTests", f.1])
         else []) := by
  have h1 : (match ci.base_image_path with
      | some p =>
        match w.resolve p with
        | some n => [zipWriteArc [pathName p] n]
        | none => []
      | none => []).filter (fun (e : List String) => decide (e.length = 2) &&
        decide (e.headD "" = "ConsistencyTests")) = [] := by
    apply List.filter_eq_nil_iff.mpr
    intro e he
    cases hbip : ci.base_image_path with
    | none => simp [hbip] at he
    | some p =>
      cases hrp : w.resolve p with
      | none => simp [hbip, hrp] at he
      | some n =>
        simp only [hbip, hrp] at he
        cases n with
        | file s j =>
          simp only [List.mem_singleton] at he
          subst he
          simp [zipWriteArc, FsNode.isDir]
        | dir t dsz b => exact absurd hrp (hbase p t dsz b hbip)
  have h2 : (if (im && ci.base_metadata.isSome) = true then
      [["base_character_metadata.json"]] else []).filter
      (fun (e : List String) => decide (e.length = 2) &&
        decide (e.headD "" = "ConsistencyTests")) = [] := by
    split <;> simp
  have h3 : (List.map (fun (f : String × FsNode) =>
        zipWriteArc ["ConsistencyTests", f.1] f.2)
        (List.filter (fun (f : String × FsNode) => globMatch "" ".png" f.1) es)).filter
      (fun (e : List String) => decide (e.length = 2) &&
        decide (e.headD "" = "ConsistencyTests")) =
      List.map (fun (f : String × FsNode) => ["ConsistencyTests", f.1])
        (List.filter (fun (f : String × FsNode) => globMatch "" ".png" f.1) es) := by
    rw [List.map_congr_left (g := fun (f : String × FsNode) => ["ConsistencyTests", f.1])
      (fun f hf => by simp [zipWriteArc, hfiles f (List.mem_filter.mp hf).1])]
    apply List.filter_eq_self.mpr
    intro e he
    obtain ⟨f, hf, hfe⟩ := List.mem_map.mp he
    subst hfe
    simp
  have h4 : (List.map (fun (f : String × FsNode) =>
        zipWriteArc ["ConsistencyTests", f.1] f.2)
        (List.filter (fun (f : String × FsNode) => globMatch "" ".json" f.1) es)).filter
      (fun (e : List String) => decide (e.length = 2) &&
        decide (e.headD "" = "ConsistencyTests")) =
      List.map (fun (f : String × FsNode) => ["ConsistencyTests", f.1])
        (List.filter (fun (f : String × FsNode) => globMatch "" ".json" f.1) es) := by
    rw [List.map_congr_left (g := fun (f : String × FsNode) => ["ConsistencyTests", f.1])
      (fun f hf => by simp [zipWriteArc, hfiles f (List.mem_filter.mp hf).1])]
    apply List.filter_eq_self.mpr
    intro e he
    obtain ⟨f, hf, hfe⟩ := List.mem_map.mp he
    subst hfe
    simp
  have h5 : (if im = true then
      ([["character_summary.json"], ["README.txt"]] : List (List String))
      else []).filter (fun (e : List String) => decide (e.length = 2) &&
        decide (e.headD "" = "ConsistencyTests")) = [] := by
    split <;> simp
  rcases hsr : w.resolve (ci.path ++ ["Styles"]) with - | nd
  case none =>
    simp only [create_character_zip, characterFileEntries, hio, hcon, hsr,
      List.nil_append]
    refine ⟨_, _, rfl, ?_⟩
    simp only [List.filter_append, h1, h2, h3, h5, List.nil_append,
      List.filter_nil, List.append_nil]
    cases im
    · simp
    · simpa using h4
  case some =>
    cases nd with
    | file sz j => exact absurd hsr (hsty sz j)
    | dir sct ssz2 ses =>
      have h6 : (ses.flatMap (fun (sd : String × FsNode) =>
          if sd.2.isDir then
            (sd.2.entriesOf.filter (fun (f : String × FsNode) =>
              globMatch "" ".png" f.1)).map
              (fun f => zipWriteArc ["Styles", sd.1, f.1] f.2) ++
            (if im then
              (sd.2.entriesOf.filter (fun (f : String × FsNode) =>
                globMatch "" ".json" f.1)).map
                (fun f => zipWriteArc ["Styles", sd.1, f.1] f.2)
             else [])
          else [])).filter (fun (e : List String) => decide (e.length = 2) &&
            decide (e.headD "" = "ConsistencyTests")) = [] := by
        apply List.filter_eq_nil_iff.mpr
        intro e he
        obtain ⟨sd, hsd, he2⟩ := List.mem_flatMap.mp he
        split at he2
        case isFalse => simp at he2
        case isTrue =>
          rcases List.mem_append.mp he2 with h7 | h7
          · obtain ⟨f, hf, hfe⟩ := List.mem_map.mp h7
            subst hfe
            cases hfd : f.2.isDir <;> simp [zipWriteArc, hfd]
          · split at h7
            case isFalse => simp at h7
            case isTrue =>
              obtain ⟨f, hf, hfe⟩ := List.mem_map.mp h7
              subst hfe
              cases hfd : f.2.isDir <;> simp [zipWriteArc, hfd]
      simp only [create_character_zip, characterFileEntries, hio, hcon, hsr,
        List.nil_append]
      refine ⟨_, _, rfl, ?_⟩
      simp only [List.filter_append, h1, h2, h3, h5, h6, List.nil_append,
        List.filter_nil, List.append_nil]
      cases im
      · simp
      · simpa using h4

/-- Witness for the amended C5 at the concrete record whose
`ConsistencyTests` folder holds the single stray image `Extra.png`. -/
theorem consistency_entries_are_folder_pngs_witness :
    ∃ m entries, create_character_zip c5World c5Record true =
      (true, m, some entries) ∧
      entries.filter (fun (e : List String) => decide (e.length = 2) &&
          decide (e.headD "" = "ConsistencyTests")) =
        ([("Extra.png", FsNode.file 7 none)].filter
          (fun (f : String × FsNode) => globMatch "" ".png" f.1)).map
          (fun f => ["ConsistencyTests", f.1]) ++
        (if true then
          ([("Extra.png", FsNode.file 7 none)].filter
            (fun (f : String × FsNode) => globMatch "" ".json" f.1)).map
            (fun f => ["ConsistencyTests", f.1])
         else []) :=
  consistency_entries_are_folder_pngs c5World c5Record true 0 0
    [("Extra.png", FsNode.file 7 none)] rfl rfl (by decide)
    (by
      intro sz j h
      rw [show c5World.resolve (c5Record.path ++ ["Styles"]) = none from rfl] at h
      exact Option.noConfusion h)
    (by
      intro p bct bsz2 bes hp h
      have hp2 : ["S", "C", "Base-Character.png"] = p := Option.some.inj hp
      rw [← hp2] at h
      rw [show c5World.resolve ["S", "C", "Base-Character.png"] =
        some (FsNode.file 10 none) from rfl] at h
      simp at h)

lemma zipWriteArc_shape (arc : List String) (n : FsNode) :
    zipWriteArc arc n = arc ∨ zipWriteArc arc n = arc ++ [""] := by
  unfold zipWriteArc
  split
  · exact Or.inr rfl
  · exact Or.inl rfl

lemma zipWriteArc_prefixed (pfx x : List String) (hx : x ≠ []) (n : FsNode) :
    ∃ r, zipWriteArc (pfx ++ x) n = pfx ++ r ∧ r ≠ [] := by
  rcases zipWriteArc_shape (pfx ++ x) n with h | h
  · exact ⟨x, h, hx⟩
  · exact ⟨x ++ [""], by rw [h, List.append_assoc], by simp⟩

lemma mem_nil_segment (pfx : List String) :
    ∀ e ∈ ([] : List (List String)), ∃ r, e = pfx ++ r ∧ r ≠ [] := by
  simp

lemma mem_base_segment (w : World) (c : CharacterInfo) (pfx : List String) :
    ∀ e ∈ (match c.base_image_path with
      | some p =>
        match w.resolve p with
        | some n => [zipWriteArc (pfx ++ [pathName p]) n]
        | none => []
      | none => ([] : List (List String))), ∃ r, e = pfx ++ r ∧ r ≠ [] := by
  intro e he
  cases hbip : c.base_image_path with
  | none => simp [hbip] at he
  | some p =>
    cases hrp : w.resolve p with
    | none => simp [hbip, hrp] at he
    | some n =>
      simp only [hbip, hrp, List.mem_singleton] at he
      subst he
      exact zipWriteArc_prefixed pfx [pathName p] (by simp) n

lemma mem_meta_segment (b : Bool) (pfx : List String) :
    ∀ e ∈ (if b then [pfx ++ ["base_character_metadata.json"]] else []),
      ∃ r, e = pfx ++ r ∧ r ≠ [] := by
  intro e he
  split at he
  case isTrue =>
    simp only [List.mem_singleton] at he
    subst he
    exact ⟨["base_character_metadata.json"], rfl, by simp⟩
  case isFalse => simp at he

lemma mem_consis_segment (pfx : List String) (im : Bool)
    (ces : List (String × FsNode)) :
    ∀ e ∈ ((ces.filter (fun (f : String × FsNode) =>
        globMatch "" ".png" f.1)).map
        (fun f => zipWriteArc (pfx ++ ["ConsistencyTests", f.1]) f.2) ++
      (if im then
        (ces.filter (fun (f : String × FsNode) =>
          globMatch "" ".json" f.1)).map
          (fun f => zipWriteArc (pfx ++ ["ConsistencyTests", f.1]) f.2)
       else [])), ∃ r, e = pfx ++ r ∧ r ≠ [] := by
  intro e he
  rcases List.mem_append.mp he with h | h
  · obtain ⟨f, -, hf⟩ := List.mem_map.mp h
    subst hf
    exact zipWriteArc_prefixed pfx ["ConsistencyTests", f.1] (by simp) f.2
  · split at h
    case isTrue =>
      obtain ⟨f, -, hf⟩ := List.mem_map.mp h
      subst hf
      exact zipWriteArc_prefixed pfx ["ConsistencyTests", f.1] (by simp) f.2
    case isFalse => simp at h

lemma mem_styles_segment (pfx : List String) (im : Bool)
    (ses : List (String × FsNode)) :
    ∀ e ∈ ses.flatMap (fun (sd : String × FsNode) =>
      if sd.2.isDir then
        (sd.2.entriesOf.filter (fun (f : String × FsNode) =>
          globMatch "" ".png" f.1)).map
          (fun f => zipWriteArc (pfx ++ ["Styles", sd.1, f.1]) f.2) ++
        (if im then
          (sd.2.entriesOf.filter (fun (f : String × FsNode) =>
            globMatch "" ".json" f.1)).map
            (fun f => zipWriteArc (pfx ++ ["Styles", sd.1, f.1]) f.2)
         else [])
      else []), ∃ r, e = pfx ++ r ∧ r ≠ [] := by
  intro e he
  obtain ⟨sd, -, h⟩ := List.mem_flatMap.mp he
  split at h
  case isTrue =>
    rcases List.mem_append.mp h with h2 | h2
    · obtain ⟨f, -, hf⟩ := List.mem_map.mp h2
      subst hf
      exact zipWriteArc_prefixed pfx ["Styles", sd.1, f.1] (by simp) f.2
    · split at h2
      case isTrue =>
        obtain ⟨f, -, hf⟩ := List.mem_map.mp h2
        subst hf
        exact zipWriteArc_prefixed pfx ["Styles", sd.1, f.1] (by simp) f.2
      case isFalse => simp at h2
  case isFalse => simp at h

lemma mem_four_segments (pfx : List String) (A B C D : List (List String))
    (hA : ∀ e ∈ A, ∃ r, e = pfx ++ r ∧ r ≠ [])
    (hB : ∀ e ∈ B, ∃ r, e = pfx ++ r ∧ r ≠ [])
    (hC : ∀ e ∈ C, ∃ r, e = pfx ++ r ∧ r ≠ [])
    (hD : ∀ e ∈ D, ∃ r, e = pfx ++ r ∧ r ≠ []) :
    ∀ e ∈ A ++ B ++ C ++ D, ∃ r, e = pfx ++ r ∧ r ≠ [] := by
  intro e he
  rcases List.mem_append.mp he with h2 | h
  · rcases List.mem_append.mp h2 with h3 | h
    · rcases List.mem_append.mp h3 with h | h
      · exact hA e h
      · exact hB e h
    · exact hC e h
  · exact hD e h

lemma mem_consis_match_segment (w : World) (c : CharacterInfo)
    (pfx : List String) (im : Bool) :
    ∀ e ∈ (match w.resolve (c.path ++ ["ConsistencyTests"]) with
      | some (FsNode.dir _ _ es) =>
        (es.filter (fun (f : String × FsNode) => globMatch "" ".png" f.1)).map
          (fun (f : String × FsNode) =>
            zipWriteArc (pfx ++ ["ConsistencyTests", f.1]) f.2) ++
        (if im then
          (es.filter (fun (f : String × FsNode) => globMatch "" ".json" f.1)).map
            (fun (f : String × FsNode) =>
              zipWriteArc (pfx ++ ["ConsistencyTests", f.1]) f.2)
         else [])
      | _ => ([] : List (List String))), ∃ r, e = pfx ++ r ∧ r ≠ [] := by
  intro e he
  rcases hcr : w.resolve (c.path ++ ["ConsistencyTests"]) with - | ncon
  · rw [hcr] at he
    exact absurd he (List.not_mem_nil e)
  · rw [hcr] at he
    cases ncon with
    | file sz2 j2 => exact absurd he (List.not_mem_nil e)
    | dir cct csz ces => exact mem_consis_segment pfx im ces e he

lemma characterFileEntries_ok_prefixed (w : World) (c : CharacterInfo)
    (im : Bool) (pfx : List String)
    (hs : ∀ sz j, w.resolve (c.path ++ ["Styles"]) ≠ some (FsNode.file sz j)) :
    ∃ fes, characterFileEntries w c im pfx = Except.ok fes ∧
      ∀ e ∈ fes, ∃ r, e = pfx ++ r ∧ r ≠ [] := by
  rcases hsr : w.resolve (c.path ++ ["Styles"]) with - | nsty
  case none =>
    simp only [characterFileEntries, hsr]
    exact ⟨_, rfl, mem_four_segments pfx _ _ _ _
      (mem_base_segment w c pfx) (mem_meta_segment _ pfx)
      (mem_consis_match_segment w c pfx im) (mem_nil_segment pfx)⟩
  case some =>
    cases nsty with
    | file sz j => exact absurd hsr (hs sz j)
    | dir sct ssz ses =>
      simp only [characterFileEntries, hsr]
      exact ⟨_, rfl, mem_four_segments pfx _ _ _ _
        (mem_base_segment w c pfx) (mem_meta_segment _ pfx)
        (mem_consis_match_segment w c pfx im) (mem_styles_segment pfx im ses)⟩

lemma characterFileEntries_error_of_styles_file (w : World)
    (c : CharacterInfo) (im : Bool) (pfx : List String) (sz : Nat)
    (j : Option JsonDoc)
    (hfile : w.resolve (c.path ++ ["Styles"]) = some (FsNode.file sz j)) :
    characterFileEntries w c im pfx = Except.error "NotADirectoryError" := by
  simp only [characterFileEntries, hfile]

lemma batchCharEntries_ok (w : World) (c : CharacterInfo) (im : Bool)
    (hs : ∀ sz j, w.resolve (c.path ++ ["Styles"]) ≠ some (FsNode.file sz j)) :
    ∃ fes, batchCharEntries w c im = Except.ok fes ∧
      ∀ e ∈ fes, ∃ r,
        e = (c.session_id ++ "_" ++ c.character_id) :: r ∧ r ≠ [] := by
  obtain ⟨fes, hfe, hall⟩ := characterFileEntries_ok_prefixed w c im
    [c.session_id ++ "_" ++ c.character_id] hs
  simp only [batchCharEntries]
  rw [hfe]
  refine ⟨_, rfl, ?_⟩
  intro e he
  rcases List.mem_append.mp he with h | h
  · obtain ⟨r, her, hr⟩ := hall e h
    exact ⟨r, her, hr⟩
  · split at h
    case isTrue =>
      simp only [List.mem_singleton] at h
      subst h
      exact ⟨["character_summary.json"], rfl, by simp⟩
    case isFalse => simp at h

lemma batchCharEntries_error_of_styles_file (w : World) (c : CharacterInfo)
    (im : Bool) (sz : Nat) (j : Option JsonDoc)
    (hfile : w.resolve (c.path ++ ["Styles"]) = some (FsNode.file sz j)) :
    batchCharEntries w c im = Except.error "NotADirectoryError" := by
  have h := characterFileEntries_error_of_styles_file w c im
    [c.session_id ++ "_" ++ c.character_id] sz j hfile
  simp only [batchCharEntries, h]

lemma batchAllEntries_ok (w : World) (chars : List CharacterInfo) (im : Bool)
    (hok : ∀ c ∈ chars, ∀ sz j,
      w.resolve (c.path ++ ["Styles"]) ≠ some (FsNode.file sz j)) :
    ∃ fes, batchAllEntries w chars im = Except.ok fes ∧
      ∀ e ∈ fes, ∃ c ∈ chars, ∃ r,
        e = (c.session_id ++ "_" ++ c.character_id) :: r ∧ r ≠ [] := by
  induction chars with
  | nil => exact ⟨[], rfl, by simp⟩
  | cons c rest ih =>
    obtain ⟨fes1, hfe1, hall1⟩ := batchCharEntries_ok w c im
      (hok c (List.mem_cons_self _ _))
    obtain ⟨fes2, hfe2, hall2⟩ := ih
      (fun c2 hc2 => hok c2 (List.mem_cons_of_mem _ hc2))
    unfold batchAllEntries
    rw [hfe1, hfe2]
    refine ⟨_, rfl, ?_⟩
    intro e he
    rcases List.mem_append.mp he with h | h
    · obtain ⟨r, her, hr⟩ := hall1 e h
      exact ⟨c, List.mem_cons_self _ _, r, her, hr⟩
    · obtain ⟨c2, hc2, r, her, hr⟩ := hall2 e h
      exact ⟨c2, List.mem_cons_of_mem _ hc2, r, her, hr⟩

lemma batchAllEntries_error_of_styles_file (w : World)
    (chars : List CharacterInfo) (im : Bool) (c : CharacterInfo)
    (hc : c ∈ chars) (sz : Nat) (j : Option JsonDoc)
    (hfile : w.resolve (c.path ++ ["Styles"]) = some (FsNode.file sz j)) :
    ∃ e, batchAllEntries w chars im = Except.error e := by
  induction chars with
  | nil => exact absurd hc (List.not_mem_nil c)
  | cons c2 rest ih =>
    rcases List.mem_cons.mp hc with h | h
    · subst h
      have hbc := batchCharEntries_error_of_styles_file w c im sz j hfile
      exact ⟨"NotADirectoryError", by simp only [batchAllEntries, hbc]⟩
    · cases hv : batchCharEntries w c2 im with
      | error e => exact ⟨e, by simp only [batchAllEntries, hv]⟩
      | ok es =>
        obtain ⟨e, he⟩ := ih h
        exact ⟨e, by simp only [batchAllEntries, hv, he]⟩

/-- C6 as amended: for a non-empty batch whose records have no `Styles` path
existing as a regular file, the build succeeds, every per-character entry
path starts with one of the `<session_id>_<character_id>/` prefixes, and —
when `include_metadata` is true — `batch_summary.json` and `README.txt` each
exist exactly once at the archive root (with `include_metadata = false`
neither entry is written at all); when some record's `Styles` path exists as
a regular file, `iterdir` raises and the build instead fails softly with no
archive. -/
theorem batch_zip_prefixed_entries (w : World) (chars : List CharacterInfo)
    (im : Bool) (hio : w.ioError = none) (hne : chars ≠ []) :
    ((∀ c ∈ chars, ∀ sz j,
        w.resolve (c.path ++ ["Styles"]) ≠ some (FsNode.file sz j)) →
      ∃ m entries, create_batch_zip w chars im = (true, m, some entries) ∧
        (∀ e ∈ entries,
          (∃ c ∈ chars, e.headD "" = c.session_id ++ "_" ++ c.character_id ∧
            2 ≤ e.length) ∨
          e = ["batch_summary.json"] ∨ e = ["README.txt"]) ∧
        entries.count ["batch_summary.json"] = (if im then 1 else 0) ∧
        entries.count ["README.txt"] = (if im then 1 else 0)) ∧
    (∀ c ∈ chars, ∀ sz j,
      w.resolve (c.path ++ ["Styles"]) = some (FsNode.file sz j) →
      ∃ m, create_batch_zip w chars im = (false, m, none)) := by
  have hemp : chars.isEmpty = false := List.isEmpty_eq_false.mpr hne
  constructor
  · intro hok
    obtain ⟨fes, hfe, hall⟩ := batchAllEntries_ok w chars im hok
    have hcall : create_batch_zip w chars im =
        (true, "✅ Batch ZIP created: " ++ toString chars.length ++
          " characters (" ++ w.zipSizeStr ++ " MB)",
         some (fes ++ (if im then
           [["batch_summary.json"], ["README.txt"]] else []))) := by
      simp [create_batch_zip, hemp, hio, hfe]
    have hz1 : fes.count ["batch_summary.json"] = 0 := by
      apply List.count_eq_zero.mpr
      intro hmem
      obtain ⟨c, -, r, her, hr⟩ := hall _ hmem
      injection her with h1 h2
      exact hr h2.symm
    have hz2 : fes.count ["README.txt"] = 0 := by
      apply List.count_eq_zero.mpr
      intro hmem
      obtain ⟨c, -, r, her, hr⟩ := hall _ hmem
      injection her with h1 h2
      exact hr h2.symm
    refine ⟨_, _, hcall, ?_, ?_, ?_⟩
    · intro e he
      rcases List.mem_append.mp he with h | h
      · obtain ⟨c, hc, r, her, hr⟩ := hall e h
        subst her
        refine Or.inl ⟨c, hc, rfl, ?_⟩
        have := List.length_pos.mpr hr
        simp only [List.length_cons]
        omega
      · split at h
        case isTrue =>
          simp only [List.mem_cons, List.not_mem_nil, or_false] at h
          exact Or.inr h
        case isFalse => exact absurd h (List.not_mem_nil e)
    · rw [List.count_append, hz1]
      cases im
      · simp
      · simp only [if_true]
        decide
    · rw [List.count_append, hz2]
      cases im
      · simp
      · simp only [if_true]
        decide
  · intro c hc sz j hfile
    obtain ⟨e, he⟩ :=
      batchAllEntries_error_of_styles_file w chars im c hc sz j hfile
    exact ⟨"❌ Error creating batch ZIP: " ++ e,
      by simp [create_batch_zip, hemp, hio, he]⟩

/-- An empty filesystem for the batch-build claims. -/
def c6World : World :=
  { root := FsNode.dir 0 0 [], ioError := none, timestamp := "T",
    zipSizeStr := "sz" }

/-- A record whose backing files are gone (nothing to pack). -/
def c6Record : CharacterInfo :=
  { session_id := "S", character_id := "C", path := ["S", "C"],
    creation_date := 0, base_image_path := none, base_metadata := none,
    prompt := none, realistic_count := 0, styled_counts := [],
    total_images := 1 }

/-- A filesystem in which the record's `Styles` path exists as a regular
file, on which `iterdir` raises. -/
def c6StylesFileWorld : World :=
  { root := FsNode.dir 0 0 [("S", FsNode.dir 0 0 [("C", FsNode.dir 0 0
      [("Styles", FsNode.file 1 none)])])],
    ioError := none, timestamp := "T", zipSizeStr := "sz" }

/-- Counterexample to C6 as stated, in both directions it fails: with
`include_metadata = false` the produced batch archive contains no
`batch_summary.json` and no `README.txt` at all (count 0, not exactly 1);
and for a record whose `Styles` path exists as a regular file the batch
build does not succeed at all — `iterdir` raises and the builder returns a
failure triple. -/
theorem batch_zip_missing_summary_without_metadata :
    create_batch_zip c6World [c6Record] false =
      (true, "✅ Batch ZIP created: 1 characters (sz MB)", some []) ∧
    ([] : List (List String)).count ["batch_summary.json"] = 0 ∧
    ([] : List (List String)).count ["README.txt"] = 0 ∧ (0 : Nat) ≠ 1 ∧
    create_batch_zip c6StylesFileWorld [c6Record] true =
      (false, "❌ Error creating batch ZIP: NotADirectoryError", none) :=
  ⟨rfl, rfl, rfl, by decide, rfl⟩

/-- Witness for the amended C6 on a concrete one-record batch with
`include_metadata = true`. -/
theorem batch_zip_prefixed_entries_witness :
    ∃ m entries, create_batch_zip c6World [c6Record] true =
      (true, m, some entries) ∧
      (∀ e ∈ entries,
        (∃ c ∈ [c6Record], e.headD "" = c.session_id ++ "_" ++ c.character_id ∧
          2 ≤ e.length) ∨
        e = ["batch_summary.json"] ∨ e = ["README.txt"]) ∧
      entries.count ["batch_summary.json"] = (if true then 1 else 0) ∧
      entries.count ["README.txt"] = (if true then 1 else 0) :=
  (batch_zip_prefixed_entries c6World [c6Record] true rfl (by simp)).1
    (by
      intro c hc sz j h
      rw [List.mem_singleton] at hc
      subst hc
      rw [show c6World.resolve (c6Record.path ++ ["Styles"]) =
        none from rfl] at h
      exact Option.noConfusion h)

lemma estimatedTotalSize_ok (w : World) (chars : List CharacterInfo)
    (hok : ∀ c ∈ chars, ∀ sz j,
      w.resolve (c.path ++ ["Styles"]) ≠ some (FsNode.file sz j)) :
    estimatedTotalSize w chars = Except.ok (specTotalBytes w chars) := by
  induction chars with
  | nil => rfl
  | cons c rest ih =>
    have hchar : estimatedSizeOfChar w c = Except.ok
        (baseImageBytes w c + consistencyPngBytes w c + stylesPngBytes w c) := by
      unfold estimatedSizeOfChar
      split
      case h_1 sz j heq =>
        exact absurd heq (hok c (List.mem_cons_self _ _) sz j)
      case h_2 => rfl
    unfold estimatedTotalSize
    rw [hchar, ih (fun c2 hc2 => hok c2 (List.mem_cons_of_mem _ hc2))]
    simp [specTotalBytes]

lemma estimatedTotalSize_error_of_styles_file (w : World)
    (chars : List CharacterInfo) (c : CharacterInfo) (hc : c ∈ chars)
    (sz : Nat) (j : Option JsonDoc)
    (hfile : w.resolve (c.path ++ ["Styles"]) = some (FsNode.file sz j)) :
    ∃ e, estimatedTotalSize w chars = Except.error e := by
  induction chars with
  | nil => exact absurd hc (List.not_mem_nil c)
  | cons c2 rest ih =>
    rcases List.mem_cons.mp hc with h | h
    · subst h
      have hchar : estimatedSizeOfChar w c = Except.error "NotADirectoryError" := by
        simp only [estimatedSizeOfChar, hfile]
      exact ⟨"NotADirectoryError", by simp only [estimatedTotalSize, hchar]⟩
    · cases hv : estimatedSizeOfChar w c2 with
      | error e => exact ⟨e, by simp only [estimatedTotalSize, hv]⟩
      | ok v =>
        obtain ⟨e, he⟩ := ih h
        exact ⟨e, by simp only [estimatedTotalSize, hv, he]⟩

/-- The world of the C9 counterexample: a single 90-byte base image. -/
def c9World : World :=
  { root := FsNode.dir 0 0 [("img.png", FsNode.file 90 none)],
    ioError := none, timestamp := "", zipSizeStr := "" }

/-- A record whose only counted file is the 90-byte base image. -/
def c9Record : CharacterInfo :=
  { session_id := "S", character_id := "C", path := ["nochar"],
    creation_date := 0, base_image_path := some ["img.png"],
    base_metadata := none, prompt := none, realistic_count := 0,
    styled_counts := [], total_images := 1 }

/-- Counterexample to C9 as stated: for a 90-byte total the estimator
returns `int(90 * 0.7) = 62` — the stored double `0.7` is slightly below
`7/10`, and the rounded product `62.99999999999999` truncates to 62 — while
the exact integer floor of `0.7 × 90` is 63. -/
theorem estimator_below_exact_floor :
    specTotalBytes c9World [c9Record] = 90 ∧
    (get_estimated_zip_size c9World [c9Record]).1 = 62 ∧
    ⌊(7 / 10 : ℚ) * 90⌋ = 63 ∧ (62 : ℤ) ≠ 63 :=
  ⟨rfl, rfl, by norm_num, by decide⟩

/-- C9 as amended: the estimator never builds an archive; it sums the
on-disk sizes of each record's existing base image, the `*.png`-matching
entries under `ConsistencyTests`, and the `*.png`-matching entries under
each `Styles` subdirectory — metadata files are never counted and there is
no `include_metadata` parameter — then scales the total by the constant 0.7
in IEEE double arithmetic, truncating toward zero (occasionally one below
the exact floor, e.g. 62 for a 90-byte total); on any I/O error, including
a record's `Styles` path existing as a regular file (on which `iterdir`
raises), it returns `(0, "Unknown")`. -/
theorem estimator_sums_pngs_and_scales (w : World)
    (chars : List CharacterInfo) (hio : w.ioError = none) :
    ((∀ c ∈ chars, ∀ sz j,
        w.resolve (c.path ++ ["Styles"]) ≠ some (FsNode.file sz j)) →
      get_estimated_zip_size w chars =
        (int_mul_0_7 (specTotalBytes w chars),
         sizeString (int_mul_0_7 (specTotalBytes w chars)))) ∧
    (∀ c ∈ chars, ∀ sz j,
      w.resolve (c.path ++ ["Styles"]) = some (FsNode.file sz j) →
      get_estimated_zip_size w chars = (0, "Unknown")) ∧
    ∀ w2 : World, ∀ e, w2.ioError = some e →
      get_estimated_zip_size w2 chars = (0, "Unknown") := by
  refine ⟨?_, ?_, ?_⟩
  · intro hok
    simp only [get_estimated_zip_size, hio, estimatedTotalSize_ok w chars hok]
  · intro c hc sz j hfile
    obtain ⟨e, he⟩ :=
      estimatedTotalSize_error_of_styles_file w chars c hc sz j hfile
    simp only [get_estimated_zip_size, hio, he]
  · intro w2 e he
    simp only [get_estimated_zip_size, he]

/-- Witness for the amended C9 on the concrete 90-byte record set. -/
theorem estimator_sums_pngs_and_scales_witness :
    ((∀ c ∈ [c9Record], ∀ sz j,
        c9World.resolve (c.path ++ ["Styles"]) ≠ some (FsNode.file sz j)) →
      get_estimated_zip_size c9World [c9Record] =
        (int_mul_0_7 (specTotalBytes c9World [c9Record]),
         sizeString (int_mul_0_7 (specTotalBytes c9World [c9Record])))) ∧
    (∀ c ∈ [c9Record], ∀ sz j,
      c9World.resolve (c.path ++ ["Styles"]) = some (FsNode.file sz j) →
      get_estimated_zip_size c9World [c9Record] = (0, "Unknown")) ∧
    ∀ w2 : World, ∀ e, w2.ioError = some e →
      get_estimated_zip_size w2 [c9Record] = (0, "Unknown") :=
  estimator_sums_pngs_and_scales c9World [c9Record] rfl

/-- The world of the C4 witness: a base image, two consistency images and
one ghibli-styled image on disk. -/
def c4World : World :=
  { root := FsNode.dir 0 0
      [("img.png", FsNode.file 5 none),
       ("p", FsNode.dir 2 0
         [("ConsistencyTests", FsNode.dir 0 0
            [("Realistic_001.png", FsNode.file 1 none),
             ("Realistic_002.png", FsNode.file 2 none)]),
          ("Styles", FsNode.dir 0 0
            [("ghibli", FsNode.dir 0 0 [("g1.png", FsNode.file 3 none)])])])],
    ioError := none, timestamp := "T", zipSizeStr := "Z" }

/-- The record of the C4 witness. -/
def c4Record : CharacterInfo :=
  { session_id := "S", character_id := "C", path := ["p"],
    creation_date := 2, base_image_path := some ["img.png"],
    base_metadata := some { prompt := none }, prompt := none,
    realistic_count := 2, styled_counts := [("ghibli", 1)],
    total_images := 4 }

/-- Witness for C4 on the concrete record: the archive holds exactly the 7
expected entries. -/
theorem single_zip_seven_entries_witness :
    ∃ m, create_character_zip c4World c4Record true =
      (true, m, some [["img.png"], ["base_character_metadata.json"],
        ["ConsistencyTests", "Realistic_001.png"],
        ["ConsistencyTests", "Realistic_002.png"],
        ["Styles", "ghibli", "g1.png"], ["character_summary.json"],
        ["README.txt"]]) ∧
    ([["img.png"], ["base_character_metadata.json"],
      ["ConsistencyTests", "Realistic_001.png"],
      ["ConsistencyTests", "Realistic_002.png"],
      ["Styles", "ghibli", "g1.png"], ["character_summary.json"],
      ["README.txt"]] : List (List String)).length = 7 :=
  single_zip_seven_entries c4World c4Record ["img.png"] 5 none
    { prompt := none } 0 0 "Realistic_001.png" "Realistic_002.png" 1 2 none
    none 0 0 0 0 "g1.png" 3 none rfl rfl rfl rfl rfl (by decide) (by decide)
    (by decide) (by decide) rfl (by decide) (by decide)
